import Mathlib

/-!
# Verification of the vin-mcp OAuth2 authorization server and session broker

Shallow embedding of the OAuth/session subsystem of the vin-mcp server
(dynamic client registration, consent/approval with CSRF, token exchange
with PKCE, refresh rotation, MCP session brokering, and the shared
LRU report cache), together with theorems settling the frozen claims.

Times are `Nat` milliseconds (`Date.now()`).  JS `Map`s are modelled as
insertion-ordered association lists (`Store`): `Map.get` scans for the
key, `Map.set` updates in place when present and appends otherwise,
`Map.delete` removes the binding.  Absent string-valued request fields
are modelled as `""` (matching JS falsiness of undefined and of the
empty string under the negation checks the server performs).
-/

namespace VinMcp

/-- Insertion-ordered key-value map, the model of a JS `Map`. -/
abbrev Store (V : Type) := List (String × V)

namespace Store

variable {V : Type}

/-- `Map.get`: first binding of the key, if any. -/
def find (m : Store V) (k : String) : Option V :=
  match m with
  | [] => none
  | (k', v) :: rest => if k' = k then some v else find rest k

/-- `Map.has`. -/
def contains (m : Store V) (k : String) : Bool :=
  (find m k).isSome

/-- `Map.delete`: remove the binding of the key (JS maps never hold
duplicate keys, so removing every pair with the key is the same
operation). -/
def del (m : Store V) (k : String) : Store V :=
  m.filter (fun p => p.1 ≠ k)

/-- `Map.set`: replace the value in place when the key is present,
append at the end otherwise. -/
def set (m : Store V) (k : String) (v : V) : Store V :=
  match m with
  | [] => [(k, v)]
  | (k', v') :: rest => if k' = k then (k', v) :: rest else (k', v') :: set rest k v

/-- Keys in insertion order. -/
def keys (m : Store V) : List String :=
  m.map Prod.fst

/-- Well-formedness: a JS `Map` never holds two bindings of one key. -/
def WF (m : Store V) : Prop :=
  (keys m).Nodup

end Store

/-! ## Data model (from the server source)

`clients`, `authCodes`, `tokens`, `csrfTokens`, `mcpSessions` are the five
process-wide `Map`s of the server; their record types mirror the object
literals stored in them. -/

/-- `MAX_OAUTH_CLIENTS = 500`. -/
def MAX_OAUTH_CLIENTS : Nat := 500

/-- `MAX_MCP_SESSIONS = 200`. -/
def MAX_MCP_SESSIONS : Nat := 200

/-- `SESSION_TTL = 30 * 60 * 1000`. -/
def SESSION_TTL : Nat := 30 * 60 * 1000

/-- `BASE_URL` default, the string https://mcp.vin. -/
def BASE_URL : String := "https://mcp.vin"

/-- A registered OAuth client, as stored by `POST /oauth/register`. -/
structure Client where
  client_id : String
  client_secret : String
  client_name : String
  redirect_uris : List String
  grant_types : List String
  response_types : List String
  token_endpoint_auth_method : String
  deriving Repr, DecidableEq

/-- An authorization code record, as stored by `POST /oauth/approve`
(`code_challenge = ""` models a missing/empty challenge, which the
token endpoint treats as "no PKCE recorded"). -/
structure AuthCode where
  client_id : String
  redirect_uri : String
  code_challenge : String
  code_challenge_method : String
  scope : String
  expires : Nat
  deriving Repr, DecidableEq

/-- The token kind: access or refresh. -/
inductive TokType where
  | access
  | refresh
  deriving Repr, DecidableEq

/-- A token record in the `tokens` map. -/
structure TokenRec where
  type : TokType
  client_id : String
  expires : Nat
  deriving Repr, DecidableEq

/-- A CSRF entry: `{ expires }`. -/
structure CsrfEntry where
  expires : Nat
  deriving Repr, DecidableEq

/-- An MCP session: the server/transport pair is modelled as an opaque
context identifier `ctx`, plus the `expires_at` timestamp. -/
structure Session where
  ctx : Nat
  expires_at : Nat
  deriving Repr, DecidableEq

/-- The five process-wide mutable maps of the server. -/
structure Srv where
  clients : Store Client
  authCodes : Store AuthCode
  tokens : Store TokenRec
  csrfTokens : Store CsrfEntry
  mcpSessions : Store Session
  deriving Repr, DecidableEq

/-! ## Request bodies (absent string fields are `""`) -/

/-- Body of `POST /oauth/register`; `none` for the list fields models a
body value that is not an array (JS `Array.isArray` / `||` defaulting). -/
structure RegisterBody where
  client_name : String
  redirect_uris : Option (List String)
  grant_types : Option (List String)
  response_types : Option (List String)
  token_endpoint_auth_method : String
  deriving Repr, DecidableEq

/-- Body of `POST /oauth/approve`. -/
structure ApproveBody where
  csrf : String
  client_id : String
  redirect_uri : String
  state : String
  code_challenge : String
  code_challenge_method : String
  scope : String
  deriving Repr, DecidableEq

/-- Body of `POST /oauth/token`. -/
structure TokenBody where
  grant_type : String
  code : String
  redirect_uri : String
  client_id : String
  code_verifier : String
  refresh_token : String
  deriving Repr, DecidableEq

/-! ## Responses -/

/-- Response of `POST /oauth/register`. -/
inductive RegResp where
  /-- `201` with the full client record. -/
  | created (c : Client)
  /-- `503 server_error` ("Too many registered clients"). -/
  | busy
  deriving Repr, DecidableEq

/-- Response of `POST /oauth/approve`. -/
inductive ApproveResp where
  /-- `403` ("Invalid or expired CSRF token"). -/
  | forbidden
  /-- `400` ("Unknown client"). -/
  | unknownClient
  /-- `400` ("Invalid redirect URI for this client"). -/
  | badRedirect
  /-- `302` to `uri` with `code` (and `state` when nonempty) appended. -/
  | redirect (uri : String) (code : String) (st : Option String)
  deriving Repr, DecidableEq

/-- Response of `POST /oauth/token`. -/
inductive TokenResp where
  /-- `200` with the issued access/refresh pair and scope. -/
  | ok (access_token : String) (refresh_token : String) (scope : String)
  /-- `400 invalid_grant` with optional `error_description`. -/
  | invalidGrant (desc : Option String)
  /-- `400 unsupported_grant_type`. -/
  | unsupported
  deriving Repr, DecidableEq

/-- Response of a `/mcp` call. -/
inductive McpResp where
  /-- `401` with the `WWW-Authenticate` challenge header value. -/
  | unauthorized (challenge : String)
  /-- `503` ("Too many active sessions"). -/
  | busy
  /-- The request was dispatched into the protocol context `ctx`. -/
  | handled (ctx : Nat)
  /-- `400` ("No session") for GET / `404` ("Session not found") for DELETE. -/
  | noSession
  deriving Repr, DecidableEq

/-! ## Handlers -/

/-- `POST /oauth/register`.  `newId`/`newSecret` stand for the random
`crypto.randomUUID()` and the random hex secret. -/
def oauthRegister (s : Srv) (b : RegisterBody) (newId newSecret : String) :
    RegResp × Srv :=
  if s.clients.length ≥ MAX_OAUTH_CLIENTS then (.busy, s)
  else
    let client : Client := {
      client_id := newId
      client_secret := newSecret
      client_name := (if b.client_name = "" then "Unknown" else b.client_name).take 100
      redirect_uris := (b.redirect_uris.getD []).map (fun u => u.take 2048)
      grant_types := b.grant_types.getD ["authorization_code", "refresh_token"]
      response_types := b.response_types.getD ["code"]
      token_endpoint_auth_method :=
        if b.token_endpoint_auth_method = "" then "client_secret_post"
        else b.token_endpoint_auth_method }
    (.created client, { s with clients := Store.set s.clients newId client })

/-- The authorization-code record the approval handler stores
(10-minute expiry, defaulted method and scope). -/
def approvedCode (b : ApproveBody) (now : Nat) : AuthCode :=
  { client_id := b.client_id
    redirect_uri := b.redirect_uri
    code_challenge := b.code_challenge
    code_challenge_method :=
      if b.code_challenge_method = "" then "S256" else b.code_challenge_method
    scope := if b.scope = "" then "mcp:tools" else b.scope
    expires := now + 10 * 60 * 1000 }

/-- `POST /oauth/approve`.  `newCode` stands for the random
random hex authorization code.  Note that the CSRF check is
`csrfTokens.has(csrf)` — the `expires` field of the entry is not
consulted. -/
def oauthApprove (s : Srv) (now : Nat) (b : ApproveBody) (newCode : String) :
    ApproveResp × Srv :=
  if b.csrf = "" ∨ ¬ Store.contains s.csrfTokens b.csrf then (.forbidden, s)
  else
    let s1 := { s with csrfTokens := Store.del s.csrfTokens b.csrf }
    match Store.find s1.clients b.client_id with
    | none => (.unknownClient, s1)
    | some client =>
      if client.redirect_uris.length > 0 ∧ b.redirect_uri ∉ client.redirect_uris then
        (.badRedirect, s1)
      else
        (.redirect b.redirect_uri newCode (if b.state = "" then none else some b.state),
         { s1 with authCodes := Store.set s1.authCodes newCode (approvedCode b now) })

/-- The two `tokens.set` calls of the token endpoint: store one access
token (1 h) and one refresh token (30 d), both bound to `client_id`. -/
def issueTokenPair (tokens : Store TokenRec) (client_id : String) (now : Nat)
    (freshA freshR : String) : Store TokenRec :=
  Store.set
    (Store.set tokens freshA
      { type := .access, client_id := client_id, expires := now + 3600000 })
    freshR
    { type := .refresh, client_id := client_id, expires := now + 30 * 86400000 }

/-- `POST /oauth/token`.  `hash` stands for
the base64url-encoded SHA-256 digest used for PKCE;
`freshA`/`freshR` for the two random token strings. -/
def oauthToken (hash : String → String) (s : Srv) (now : Nat) (b : TokenBody)
    (freshA freshR : String) : TokenResp × Srv :=
  if b.grant_type = "authorization_code" then
    match Store.find s.authCodes b.code with
    | none => (.invalidGrant none, s)
    | some authCode =>
      if now > authCode.expires then
        (.invalidGrant none, { s with authCodes := Store.del s.authCodes b.code })
      else if authCode.client_id ≠ b.client_id then (.invalidGrant none, s)
      else if authCode.redirect_uri ≠ b.redirect_uri then (.invalidGrant none, s)
      else if authCode.code_challenge ≠ "" ∧ b.code_verifier = "" then
        (.invalidGrant (some "code_verifier required"), s)
      else if authCode.code_challenge ≠ "" ∧ hash b.code_verifier ≠ authCode.code_challenge then
        (.invalidGrant (some "PKCE verification failed"), s)
      else
        let s1 := { s with authCodes := Store.del s.authCodes b.code }
        let tokens2 := issueTokenPair s1.tokens authCode.client_id now freshA freshR
        (.ok freshA freshR authCode.scope, { s1 with tokens := tokens2 })
  else if b.grant_type = "refresh_token" then
    match Store.find s.tokens b.refresh_token with
    | none => (.invalidGrant none, s)
    | some rt =>
      if rt.type ≠ .refresh ∨ now > rt.expires then (.invalidGrant none, s)
      else
        let tokens2 :=
          issueTokenPair (Store.del s.tokens b.refresh_token) rt.client_id now freshA freshR
        (.ok freshA freshR "mcp:tools", { s with tokens := tokens2 })
  else (.unsupported, s)

/-- The header test of `verifyOAuthToken`: the first seven characters
of the header spell Bearer followed by a space (character-level model
of the JS startsWith test). -/
def isBearerHeader (auth : String) : Bool :=
  decide (auth.data.take 7 = "Bearer ".data)

/-- `auth.slice(7)`: the header with its first seven characters removed. -/
def bearerToken (auth : String) : String :=
  String.mk (auth.data.drop 7)

/-- `verifyOAuthToken`: the bearer token must be in the `tokens` map, of
type access, with `Date.now() < t.expires`. -/
def verifyOAuthToken (s : Srv) (now : Nat) (authHeader : String) : Bool :=
  if isBearerHeader authHeader then
    match Store.find s.tokens (bearerToken authHeader) with
    | none => false
    | some t => decide (t.type = .access ∧ now < t.expires)
  else false

/-- The `WWW-Authenticate` challenge issued on bearer failure. -/
def wwwAuthChallenge : String :=
  "Bearer resource_metadata=\"" ++ BASE_URL ++ "/.well-known/oauth-protected-resource\""

/-- `mcpAuth` middleware: `some challenge` means the request is rejected
with `401`; `none` means it proceeds. -/
def mcpAuth (s : Srv) (now : Nat) (authHeader : String) : Option String :=
  if isBearerHeader authHeader ∧ ¬ verifyOAuthToken s now authHeader then
    some wwwAuthChallenge
  else none

/-- New-session branch of `POST /mcp` (no/unknown `mcp-session-id`):
create a fresh context (capacity permitting), dispatch, then store the
session under the transport-assigned id `resSid` when one was set and is
not already present. -/
def mcpPostNew (s : Srv) (now : Nat) (freshCtx : Nat) (resSid : Option String) :
    McpResp × Srv :=
  if s.mcpSessions.length ≥ MAX_MCP_SESSIONS then (.busy, s)
  else
    let sess : Session := { ctx := freshCtx, expires_at := now + SESSION_TTL }
    let s2 :=
      match resSid with
      | some sid =>
        if ¬ Store.contains s.mcpSessions sid then
          { s with mcpSessions := Store.set s.mcpSessions sid sess }
        else s
      | none => s
    (.handled freshCtx, s2)

/-- `POST /mcp`.  `sessionIdHdr` is the `mcp-session-id` request header
(`""` when absent); `resSid` is the `mcp-session-id` header the transport
set on the response; `freshCtx` is the newly constructed server/transport
context used when no known session matches.  Note that the known-session
branch is guarded by `mcpSessions.has(sessionId)` alone — `expires_at`
is not consulted. -/
def mcpPost (s : Srv) (now : Nat) (authHeader sessionIdHdr : String)
    (freshCtx : Nat) (resSid : Option String) : McpResp × Srv :=
  match mcpAuth s now authHeader with
  | some ch => (.unauthorized ch, s)
  | none =>
    if sessionIdHdr = "" then mcpPostNew s now freshCtx resSid
    else
      match Store.find s.mcpSessions sessionIdHdr with
      | none => mcpPostNew s now freshCtx resSid
      | some sess =>
        let sess' := { sess with expires_at := now + SESSION_TTL }
        let s1 := { s with mcpSessions := Store.set s.mcpSessions sessionIdHdr sess' }
        let s2 :=
          match resSid with
          | some sid =>
            if ¬ Store.contains s1.mcpSessions sid then
              { s1 with mcpSessions := Store.set s1.mcpSessions sid sess' }
            else s1
          | none => s1
        (.handled sess.ctx, s2)

/-- `GET /mcp`: dispatch into the context of the known session, else
`400`.  No field of the session entry is written. -/
def mcpGet (s : Srv) (now : Nat) (authHeader sessionIdHdr : String) :
    McpResp × Srv :=
  match mcpAuth s now authHeader with
  | some ch => (.unauthorized ch, s)
  | none =>
    if sessionIdHdr = "" then (.noSession, s)
    else
      match Store.find s.mcpSessions sessionIdHdr with
      | none => (.noSession, s)
      | some sess => (.handled sess.ctx, s)

/-- `DELETE /mcp`: dispatch into the context of the known session and
remove the session, else `404`. -/
def mcpDelete (s : Srv) (now : Nat) (authHeader sessionIdHdr : String) :
    McpResp × Srv :=
  match mcpAuth s now authHeader with
  | some ch => (.unauthorized ch, s)
  | none =>
    if sessionIdHdr = "" then (.noSession, s)
    else
      match Store.find s.mcpSessions sessionIdHdr with
      | none => (.noSession, s)
      | some sess =>
        (.handled sess.ctx, { s with mcpSessions := Store.del s.mcpSessions sessionIdHdr })

/-! ## LRU cache with TTL (lib/cache.mjs)

The cached report objects are opaque; `Nat` stands for a cached value. -/

/-- A cache entry: `{ value, expires }`. -/
structure CacheEntry where
  value : Nat
  expires : Nat
  deriving Repr, DecidableEq

/-- `LRUCache`: `max`, `ttl`, and the insertion-ordered map (least
recently used entry first). -/
structure LRUCache where
  max : Nat
  ttl : Nat
  map : Store CacheEntry
  deriving Repr, DecidableEq

namespace LRUCache

/-- `get(key)`: miss on absent key; an entry whose `expires` has passed
is deleted and reported absent; a live entry is moved to the
most-recently-used end and its value returned. -/
def get (c : LRUCache) (key : String) (now : Nat) : Option Nat × LRUCache :=
  match Store.find c.map key with
  | none => (none, c)
  | some entry =>
    if now > entry.expires then
      (none, { c with map := Store.del c.map key })
    else
      (some entry.value, { c with map := Store.set (Store.del c.map key) key entry })

/-- `set(key, value)`: delete the old position, insert at the
most-recently-used end with a fresh TTL, then evict the oldest entry if
the size exceeds `max`. -/
def set (c : LRUCache) (key : String) (value : Nat) (now : Nat) : LRUCache :=
  let m1 := Store.del c.map key
  let m2 := Store.set m1 key { value := value, expires := now + c.ttl }
  let m3 :=
    if m2.length > c.max then
      match m2.head? with
      | some (oldest, _) => Store.del m2 oldest
      | none => m2
    else m2
  { c with map := m3 }

/-- `has(key)`: whether `get(key)` hits, sharing the mutation of `get`. -/
def has (c : LRUCache) (key : String) (now : Nat) : Bool × LRUCache :=
  let r := get c key now
  (r.1.isSome, r.2)

/-- `delete(key)`. -/
def delete (c : LRUCache) (key : String) : LRUCache :=
  { c with map := Store.del c.map key }

/-- `clear()`. -/
def clear (c : LRUCache) : LRUCache :=
  { c with map := [] }

/-- `prune()`: drop every entry whose `expires` has passed. -/
def prune (c : LRUCache) (now : Nat) : LRUCache :=
  { c with map := c.map.filter (fun p => ¬ now > p.2.expires) }

end LRUCache

/-! ## Concrete states and requests used to instantiate the theorems -/

/-- An empty server state. -/
def srv0 : Srv :=
  { clients := [], authCodes := [], tokens := [], csrfTokens := [], mcpSessions := [] }

/-- Server state holding one CSRF token that expired at t = 500. -/
def srvExpiredCsrf : Srv :=
  { srv0 with csrfTokens := [("tokC1", { expires := 500 })] }

/-- Server state holding one session that expired at t = 500. -/
def srvExpiredSession : Srv :=
  { srv0 with mcpSessions := [("sesC1", { ctx := 7, expires_at := 500 })] }

/-- Approval form submitting the expired CSRF token. -/
def bExpiredCsrf : ApproveBody :=
  { csrf := "tokC1", client_id := "cid", redirect_uri := "https://app.example/cb",
    state := "", code_challenge := "ch", code_challenge_method := "", scope := "" }

/-- Auth code record used to instantiate the token-exchange theorems. -/
def acW : AuthCode :=
  { client_id := "cid", redirect_uri := "https://app.example/cb",
    code_challenge := "ver", code_challenge_method := "S256",
    scope := "mcp:tools", expires := 999999 }

/-- Server state holding one unexpired authorization code. -/
def srvC2 : Srv := { srv0 with authCodes := [("code2", acW)] }

/-- A matching authorization_code exchange request. -/
def bC2 : TokenBody :=
  { grant_type := "authorization_code", code := "code2",
    redirect_uri := "https://app.example/cb", client_id := "cid",
    code_verifier := "ver", refresh_token := "" }

/-- Server state holding one unexpired refresh token `R1`. -/
def srvC3 : Srv :=
  { srv0 with tokens := [("R1", { type := .refresh, client_id := "cid", expires := 5000 })] }

/-- A refresh_token request submitting `R1`. -/
def bC3 : TokenBody :=
  { grant_type := "refresh_token", code := "", redirect_uri := "",
    client_id := "", code_verifier := "", refresh_token := "R1" }

/-- Server state holding one unexpired authorization code (C4 instance). -/
def srvC4 : Srv := { srv0 with authCodes := [("code4", acW)] }

/-- A matching exchange request for `code4`. -/
def bC4 : TokenBody := { bC2 with code := "code4" }

/-- Server state holding one live CSRF token `tok5` and no clients. -/
def srvC5 : Srv := { srv0 with csrfTokens := [("tok5", { expires := 999999 })] }

/-- Approval form submitting `tok5` for an unknown client (so the first
POST fails a later check). -/
def bC5 : ApproveBody := { bExpiredCsrf with csrf := "tok5" }

/-- A registered client with one registered redirect URI. -/
def clientC6 : Client :=
  { client_id := "cid6", client_secret := "sec", client_name := "app",
    redirect_uris := ["https://ok.example/cb"],
    grant_types := ["authorization_code", "refresh_token"],
    response_types := ["code"], token_endpoint_auth_method := "client_secret_post" }

/-- Server state with the client `cid6` and a live CSRF token. -/
def srvC6 : Srv :=
  { srv0 with clients := [("cid6", clientC6)],
              csrfTokens := [("tok6", { expires := 999999 })] }

/-- Approval form submitting a redirect URI the client did not register. -/
def bC6bad : ApproveBody :=
  { csrf := "tok6", client_id := "cid6", redirect_uri := "https://evil.example/cb",
    state := "xyz", code_challenge := "ch", code_challenge_method := "", scope := "" }

/-- Approval form submitting the registered redirect URI. -/
def bC6good : ApproveBody := { bC6bad with redirect_uri := "https://ok.example/cb" }

/-- A filler client record. -/
def clientFill : Client :=
  { client_id := "c", client_secret := "s", client_name := "n",
    redirect_uris := [], grant_types := [], response_types := [],
    token_endpoint_auth_method := "none" }

/-- Server state with the client registry and the session table at
their capacity bounds. -/
def srvC7 : Srv :=
  { srv0 with clients := List.replicate 500 ("c", clientFill),
              mcpSessions := List.replicate 200 ("s", { ctx := 0, expires_at := 0 }) }

/-- A registration body. -/
def bReg : RegisterBody :=
  { client_name := "app", redirect_uris := some ["https://app.example/cb"],
    grant_types := none, response_types := none, token_endpoint_auth_method := "" }

/-- Server state holding one session `s8` with `expires_at = 100`. -/
def srvC8 : Srv :=
  { srv0 with mcpSessions := [("s8", { ctx := 5, expires_at := 100 })] }

/-- Server state holding one unexpired access token `acc9`. -/
def srvC9 : Srv :=
  { srv0 with tokens := [("acc9", { type := .access, client_id := "cid", expires := 9999 })] }

/-- A two-entry LRU cache at capacity 2; entry `"a"` expired at t = 5. -/
def cacheW : LRUCache :=
  { max := 2, ttl := 10, map := [("a", { value := 1, expires := 5 }), ("b", { value := 2, expires := 100 })] }

/-! ## Association-list map lemmas -/

namespace Store

variable {V : Type}

@[simp] theorem find_nil (k : String) : find ([] : Store V) k = none := rfl

@[simp] theorem find_cons (k k' : String) (v : V) (rest : Store V) :
    find ((k', v) :: rest) k = if k' = k then some v else find rest k := rfl

@[simp] theorem del_nil (k : String) : del ([] : Store V) k = [] := rfl

@[simp] theorem del_cons (k k' : String) (v : V) (rest : Store V) :
    del ((k', v) :: rest) k =
      if k' = k then del rest k else (k', v) :: del rest k := by
  by_cases h : k' = k <;> simp [del, List.filter, h]

@[simp] theorem keys_nil : keys ([] : Store V) = [] := rfl

@[simp] theorem keys_cons (k : String) (v : V) (rest : Store V) :
    keys ((k, v) :: rest) = k :: keys rest := rfl

@[simp] theorem find_set_self (m : Store V) (k : String) (v : V) :
    find (set m k v) k = some v := by
  induction m with
  | nil => simp [set, find]
  | cons p rest ih =>
    obtain ⟨k', v'⟩ := p
    by_cases h : k' = k <;> simp [set, find, h, ih]

theorem find_set_ne (m : Store V) (k k' : String) (v : V) (h : k' ≠ k) :
    find (set m k v) k' = find m k' := by
  induction m with
  | nil =>
    have : ¬ k = k' := fun hh => h hh.symm
    simp [set, find, this]
  | cons p rest ih =>
    obtain ⟨k0, v0⟩ := p
    by_cases h0 : k0 = k
    · subst h0
      have hne : ¬ k0 = k' := fun hh => h hh.symm
      simp [set, find, hne]
    · by_cases h1 : k0 = k' <;> simp [set, find, h0, h1, h, ih]

@[simp] theorem find_del_self (m : Store V) (k : String) :
    find (del m k) k = none := by
  induction m with
  | nil => rfl
  | cons p rest ih =>
    obtain ⟨k0, v0⟩ := p
    by_cases h0 : k0 = k <;> simp [h0, ih]

theorem find_del_ne (m : Store V) (k k' : String) (h : k' ≠ k) :
    find (del m k) k' = find m k' := by
  induction m with
  | nil => rfl
  | cons p rest ih =>
    obtain ⟨k0, v0⟩ := p
    by_cases h0 : k0 = k
    · subst h0
      have hne : ¬ k0 = k' := fun hh => h hh.symm
      simp [hne, ih]
    · by_cases h1 : k0 = k' <;> simp [h0, h1, h, ih]

theorem length_del_le (m : Store V) (k : String) :
    (del m k).length ≤ m.length :=
  List.length_filter_le _ m

theorem length_set_le (m : Store V) (k : String) (v : V) :
    (set m k v).length ≤ m.length + 1 := by
  induction m with
  | nil => simp [set]
  | cons p rest ih =>
    obtain ⟨k0, v0⟩ := p
    by_cases h0 : k0 = k
    · simp [set, h0]
    · simp [set, h0]; omega


theorem find_eq_none_of_not_mem_keys (m : Store V) (k : String)
    (h : k ∉ keys m) : find m k = none := by
  induction m with
  | nil => rfl
  | cons p rest ih =>
    obtain ⟨k0, v0⟩ := p
    simp at h
    have h1 : ¬ k0 = k := fun hh => h.1 hh.symm
    simp [find, h1, ih h.2]

theorem not_mem_keys_of_find_eq_none (m : Store V) (k : String)
    (h : find m k = none) : k ∉ keys m := by
  induction m with
  | nil => simp
  | cons p rest ih =>
    obtain ⟨k0, v0⟩ := p
    by_cases h0 : k0 = k
    · simp [find, h0] at h
    · simp only [find_cons, if_neg h0] at h
      have h1 : ¬ k = k0 := fun hh => h0 hh.symm
      simp [h1, ih h]

theorem set_of_not_mem (m : Store V) (k : String) (v : V)
    (h : find m k = none) : set m k v = m ++ [(k, v)] := by
  induction m with
  | nil => simp [set]
  | cons p rest ih =>
    obtain ⟨k0, v0⟩ := p
    by_cases h0 : k0 = k
    · simp [find, h0] at h
    · simp only [find_cons, if_neg h0] at h
      simp [set, h0, ih h]

theorem length_set_of_not_mem (m : Store V) (k : String) (v : V)
    (h : find m k = none) : (set m k v).length = m.length + 1 := by
  rw [set_of_not_mem m k v h]; simp

theorem del_of_not_mem_keys (m : Store V) (k : String)
    (h : k ∉ keys m) : del m k = m := by
  induction m with
  | nil => rfl
  | cons p rest ih =>
    obtain ⟨k0, v0⟩ := p
    simp at h
    have h1 : ¬ k0 = k := fun hh => h.1 hh.symm
    simp [h1, ih h.2]

theorem keys_set_of_mem (m : Store V) (k : String) (v : V)
    (h : (find m k).isSome) : keys (set m k v) = keys m := by
  induction m with
  | nil => simp [find] at h
  | cons p rest ih =>
    obtain ⟨k0, v0⟩ := p
    by_cases h0 : k0 = k
    · simp [set, h0]
    · simp only [find_cons, if_neg h0] at h
      simp [set, h0, ih h]

theorem wf_del (m : Store V) (k : String) (h : WF m) : WF (del m k) := by
  have hs : (keys (del m k)).Sublist (keys m) := by
    simpa [keys, del] using (List.filter_sublist (l := m)
      (p := fun p => decide (p.1 ≠ k))).map Prod.fst
  exact List.Nodup.sublist hs h

theorem wf_set (m : Store V) (k : String) (v : V) (h : WF m) :
    WF (set m k v) := by
  cases hf : find m k with
  | some w =>
    have := keys_set_of_mem m k v (by simp [hf])
    unfold WF
    rw [this]; exact h
  | none =>
    have hk : k ∉ keys m := not_mem_keys_of_find_eq_none m k hf
    unfold WF
    rw [set_of_not_mem m k v hf]
    have : keys (m ++ [(k, v)]) = keys m ++ [k] := by simp [keys]
    rw [this, List.nodup_append]
    refine ⟨h, List.nodup_singleton k, ?_⟩
    intro a ha hb
    simp at hb
    subst hb
    exact hk ha

theorem length_del_of_mem (m : Store V) (k : String) (h : WF m)
    (hmem : (find m k).isSome) : (del m k).length + 1 = m.length := by
  induction m with
  | nil => simp [find] at hmem
  | cons p rest ih =>
    obtain ⟨k0, v0⟩ := p
    have h' : k0 ∉ keys rest ∧ WF rest := by
      simpa [WF] using h
    by_cases h0 : k0 = k
    · subst h0
      have : del rest k0 = rest := del_of_not_mem_keys rest k0 h'.1
      simp [this]
    · simp only [find_cons, if_neg h0] at hmem
      have := ih h'.2 hmem
      simp [h0]
      omega

end Store

/-! ## Handler lemmas -/

/-- A missing or unknown CSRF token short-circuits `/oauth/approve` with
`403` and no state change. -/
theorem oauthApprove_forbidden (s : Srv) (now : Nat) (b : ApproveBody) (nc : String)
    (h : b.csrf = "" ∨ Store.find s.csrfTokens b.csrf = none) :
    oauthApprove s now b nc = (.forbidden, s) := by
  have hcond : b.csrf = "" ∨ ¬ Store.contains s.csrfTokens b.csrf := by
    rcases h with h | h
    · exact Or.inl h
    · exact Or.inr (by simp [Store.contains, h])
  unfold oauthApprove
  rw [if_pos hcond]

/-- When the CSRF check passes, the token is deleted no matter how the
rest of the handler goes. -/
theorem oauthApprove_csrf_consumed (s : Srv) (now : Nat) (b : ApproveBody) (nc : String)
    (h1 : b.csrf ≠ "") (h2 : (Store.find s.csrfTokens b.csrf).isSome) :
    (oauthApprove s now b nc).2.csrfTokens = Store.del s.csrfTokens b.csrf := by
  have hcond : ¬ (b.csrf = "" ∨ ¬ Store.contains s.csrfTokens b.csrf) := by
    simp [Store.contains, h1]
    exact Option.isSome_iff_ne_none.mp h2
  unfold oauthApprove
  rw [if_neg hcond]
  cases hc : Store.find s.clients b.client_id with
  | none => simp [hc]
  | some client =>
    simp only [hc]
    by_cases hr : client.redirect_uris.length > 0 ∧ b.redirect_uri ∉ client.redirect_uris
    · simp [hr]
    · simp [hr]

/-! ## Claim theorems -/

/-- C1 (refuted on the code; evidence for the divergence): the claim
demands that every read path treat an entry with past `expires` as
absent, naming the CSRF lookup of `POST /oauth/approve` and the session
lookup of `POST/GET /mcp`.  At time 1000, the CSRF token `tokC1`
(expired at 500) is *not* rejected with `403` (the handler proceeds to
the client check), and the session `sesC1` (expired at 500) is still
dispatched into by both `GET /mcp` and `POST /mcp`, with `POST` even
renewing it. -/
theorem c1_expired_entries_still_read :
    500 < 1000 ∧
    (oauthApprove srvExpiredCsrf 1000 bExpiredCsrf "nc").1 = ApproveResp.unknownClient ∧
    (oauthApprove srvExpiredCsrf 1000 bExpiredCsrf "nc").1 ≠ ApproveResp.forbidden ∧
    (mcpGet srvExpiredSession 1000 "" "sesC1").1 = McpResp.handled 7 ∧
    (mcpGet srvExpiredSession 1000 "" "sesC1").1 ≠ McpResp.noSession ∧
    (mcpPost srvExpiredSession 1000 "" "sesC1" 99 (some "sesC1")).1 = McpResp.handled 7 := by
  decide

/-- C5: a `POST /oauth/approve` whose `csrf` field is absent or not
in the CSRF store is rejected with `403` and no state change, before any
other check; when the token is in the store it is deleted immediately
regardless of the outcome of the later checks, so a second POST carrying
the same token is rejected with `403`. -/
theorem c5_csrf_single_use (s : Srv) (now : Nat) (b : ApproveBody) (newCode : String) :
    ((b.csrf = "" ∨ Store.find s.csrfTokens b.csrf = none) →
       oauthApprove s now b newCode = (.forbidden, s)) ∧
    (b.csrf ≠ "" → (Store.find s.csrfTokens b.csrf).isSome →
       Store.find (oauthApprove s now b newCode).2.csrfTokens b.csrf = none ∧
       (∀ now2 b2 newCode2, b2.csrf = b.csrf →
          (oauthApprove (oauthApprove s now b newCode).2 now2 b2 newCode2).1 =
            ApproveResp.forbidden)) := by
  refine ⟨fun h => oauthApprove_forbidden s now b newCode h, fun h1 h2 => ?_⟩
  have hdel := oauthApprove_csrf_consumed s now b newCode h1 h2
  have hnone : Store.find (oauthApprove s now b newCode).2.csrfTokens b.csrf = none := by
    rw [hdel]; exact Store.find_del_self _ _
  refine ⟨hnone, fun now2 b2 newCode2 hb2 => ?_⟩
  have := oauthApprove_forbidden (oauthApprove s now b newCode).2 now2 b2 newCode2
    (Or.inr (by rw [hb2]; exact hnone))
  rw [this]

/-- C7: a registration arriving with the client registry at its cap
returns `503` and leaves the whole state (in particular the registered
clients) unchanged, and a `/mcp` request that would create a new session
while the session table is at its cap returns `503` with the state (in
particular every existing session) unchanged. -/
theorem c7_capacity_fail_closed :
    (∀ (s : Srv) (b : RegisterBody) (newId newSecret : String),
       s.clients.length ≥ MAX_OAUTH_CLIENTS →
       oauthRegister s b newId newSecret = (.busy, s)) ∧
    (∀ (s : Srv) (now : Nat) (authHeader sessionIdHdr : String) (freshCtx : Nat)
       (resSid : Option String),
       mcpAuth s now authHeader = none →
       (sessionIdHdr = "" ∨ Store.find s.mcpSessions sessionIdHdr = none) →
       s.mcpSessions.length ≥ MAX_MCP_SESSIONS →
       mcpPost s now authHeader sessionIdHdr freshCtx resSid = (.busy, s)) := by
  constructor
  · intro s b newId newSecret h
    unfold oauthRegister
    rw [if_pos h]
  · intro s now authHeader sessionIdHdr freshCtx resSid hauth hsid hlen
    have hnew : mcpPostNew s now freshCtx resSid = (.busy, s) := by
      unfold mcpPostNew
      rw [if_pos hlen]
    unfold mcpPost
    rw [hauth]
    rcases hsid with hsid | hsid
    · simp only [hsid, if_pos rfl]
      exact hnew
    · by_cases he : sessionIdHdr = ""
      · simp only [he, if_pos rfl]
        exact hnew
      · simp only [if_neg he, hsid]
        exact hnew

/-- Characterization of `verifyOAuthToken` on a bearer header. -/
theorem verifyOAuthToken_iff (s : Srv) (now : Nat) (authHeader : String)
    (h : isBearerHeader authHeader = true) :
    verifyOAuthToken s now authHeader = true ↔
      (∃ t, Store.find s.tokens (bearerToken authHeader) = some t ∧
            t.type = TokType.access ∧ now < t.expires) := by
  unfold verifyOAuthToken
  rw [if_pos (by simp [h])]
  cases hf : Store.find s.tokens (bearerToken authHeader) with
  | none => simp
  | some t => simp

/-- C9: a `/mcp` request with an `Authorization: Bearer` header is
rejected with `401` and the `WWW-Authenticate` challenge naming the
protected-resource discovery URI exactly when the presented token is not
an unexpired `access` token in the token store; a request with no bearer
header is never rejected for authentication and proceeds to session
handling. -/
theorem c9_bearer_optional_but_verified (s : Srv) (now : Nat) (authHeader : String) :
    (isBearerHeader authHeader = true →
       (mcpAuth s now authHeader = some wwwAuthChallenge ↔
         ¬ ∃ t, Store.find s.tokens (bearerToken authHeader) = some t ∧
                t.type = TokType.access ∧ now < t.expires)) ∧
    (isBearerHeader authHeader = false →
       mcpAuth s now authHeader = none ∧
       (∀ (sessionIdHdr : String) (freshCtx : Nat) (resSid : Option String)
          (ch : String),
          (mcpPost s now authHeader sessionIdHdr freshCtx resSid).1 ≠ .unauthorized ch ∧
          (mcpGet s now authHeader sessionIdHdr).1 ≠ .unauthorized ch ∧
          (mcpDelete s now authHeader sessionIdHdr).1 ≠ .unauthorized ch)) := by
  constructor
  · intro hb
    rw [← verifyOAuthToken_iff s now authHeader hb]
    unfold mcpAuth
    by_cases hv : verifyOAuthToken s now authHeader = true
    · rw [if_neg (by simp [hv])]
      simp [hv]
    · rw [if_pos (by simp [hb, hv])]
      simp [hv]
  · intro hb
    have hauth : mcpAuth s now authHeader = none := by
      unfold mcpAuth
      rw [if_neg (by simp [hb])]
    refine ⟨hauth, fun sessionIdHdr freshCtx resSid ch => ?_⟩
    refine ⟨?_, ?_, ?_⟩
    · have hnew : (mcpPostNew s now freshCtx resSid).1 ≠ McpResp.unauthorized ch := by
        unfold mcpPostNew
        by_cases h : s.mcpSessions.length ≥ MAX_MCP_SESSIONS
        · rw [if_pos h]; simp
        · rw [if_neg h]; simp
      unfold mcpPost
      rw [hauth]
      by_cases he : sessionIdHdr = ""
      · rw [if_pos he]
        exact hnew
      · rw [if_neg he]
        cases hf : Store.find s.mcpSessions sessionIdHdr with
        | none => exact hnew
        | some sess => simp
    · unfold mcpGet
      rw [hauth]
      by_cases he : sessionIdHdr = ""
      · simp [he]
      · simp only [if_neg he]
        cases hf : Store.find s.mcpSessions sessionIdHdr with
        | none => simp
        | some sess => simp
    · unfold mcpDelete
      rw [hauth]
      by_cases he : sessionIdHdr = ""
      · simp [he]
      · simp only [if_neg he]
        cases hf : Store.find s.mcpSessions sessionIdHdr with
        | none => simp
        | some sess => simp

/-- Witness for C5: `tok5` is consumed by a first POST that itself fails
the client check, and a second POST carrying `tok5` is rejected. -/
theorem c5_csrf_single_use_witness :
    Store.find (oauthApprove srvC5 10 bC5 "nc").2.csrfTokens "tok5" = none ∧
    (oauthApprove (oauthApprove srvC5 10 bC5 "nc").2 11 bC5 "nc2").1 =
      ApproveResp.forbidden := by
  have h := (c5_csrf_single_use srvC5 10 bC5 "nc").2 (by decide) (by decide)
  exact ⟨h.1, h.2 11 bC5 "nc2" rfl⟩

/-- Witness for C7 at full registry (500 clients) and full session
table (200 sessions). -/
theorem c7_capacity_witness :
    oauthRegister srvC7 bReg "id" "sec" = (RegResp.busy, srvC7) ∧
    mcpPost srvC7 5 "" "" 1 none = (McpResp.busy, srvC7) := by
  have hc : srvC7.clients.length = 500 := List.length_replicate 500 _
  have hs : srvC7.mcpSessions.length = 200 := List.length_replicate 200 _
  exact ⟨c7_capacity_fail_closed.1 srvC7 bReg "id" "sec" (le_of_eq hc.symm),
         c7_capacity_fail_closed.2 srvC7 5 "" "" 1 none (by decide) (Or.inl rfl)
           (le_of_eq hs.symm)⟩

/-- Witness for C9: a bogus bearer token is rejected with the challenge,
and a request with no bearer header passes authentication. -/
theorem c9_bearer_witness :
    (mcpAuth srvC9 100 "Bearer nope" = some wwwAuthChallenge ↔
      ¬ ∃ t, Store.find srvC9.tokens (bearerToken "Bearer nope") = some t ∧
             t.type = TokType.access ∧ 100 < t.expires) ∧
    mcpAuth srvC9 100 "" = none := by
  exact ⟨(c9_bearer_optional_but_verified srvC9 100 "Bearer nope").1 (by decide),
         ((c9_bearer_optional_but_verified srvC9 100 "").2 (by decide)).1⟩

/-- Run lemma: the authorization_code branch of the token endpoint on an
existing, unexpired code. -/
theorem oauthToken_authcode_run (hash : String → String) (s : Srv) (now : Nat)
    (b : TokenBody) (freshA freshR : String) (authCode : AuthCode)
    (hg : b.grant_type = "authorization_code")
    (hfind : Store.find s.authCodes b.code = some authCode)
    (hexp : ¬ now > authCode.expires) :
    oauthToken hash s now b freshA freshR =
      if authCode.client_id ≠ b.client_id then (.invalidGrant none, s)
      else if authCode.redirect_uri ≠ b.redirect_uri then (.invalidGrant none, s)
      else if authCode.code_challenge ≠ "" ∧ b.code_verifier = "" then
        (.invalidGrant (some "code_verifier required"), s)
      else if authCode.code_challenge ≠ "" ∧ hash b.code_verifier ≠ authCode.code_challenge then
        (.invalidGrant (some "PKCE verification failed"), s)
      else
        (.ok freshA freshR authCode.scope,
         { s with
             authCodes := Store.del s.authCodes b.code,
             tokens := issueTokenPair s.tokens authCode.client_id now freshA freshR }) := by
  unfold oauthToken
  rw [if_pos hg]
  simp only [hfind]
  rw [if_neg hexp]

/-- Run lemma: the refresh_token branch of the token endpoint on a token
present in the store. -/
theorem oauthToken_refresh_run (hash : String → String) (s : Srv) (now : Nat)
    (b : TokenBody) (freshA freshR : String) (rt : TokenRec)
    (hg : b.grant_type = "refresh_token")
    (hfind : Store.find s.tokens b.refresh_token = some rt) :
    oauthToken hash s now b freshA freshR =
      if rt.type ≠ TokType.refresh ∨ now > rt.expires then (.invalidGrant none, s)
      else
        (.ok freshA freshR "mcp:tools",
         { s with
             tokens := issueTokenPair (Store.del s.tokens b.refresh_token)
               rt.client_id now freshA freshR }) := by
  have hne : ¬ b.grant_type = "authorization_code" := by
    rw [hg]; decide
  unfold oauthToken
  rw [if_neg hne, if_pos hg]
  simp only [hfind]

/-- Run lemma: the refresh_token branch on a token absent from the
store. -/
theorem oauthToken_refresh_missing (hash : String → String) (s : Srv) (now : Nat)
    (b : TokenBody) (freshA freshR : String)
    (hg : b.grant_type = "refresh_token")
    (hfind : Store.find s.tokens b.refresh_token = none) :
    oauthToken hash s now b freshA freshR = (.invalidGrant none, s) := by
  have hne : ¬ b.grant_type = "authorization_code" := by
    rw [hg]; decide
  unfold oauthToken
  rw [if_neg hne, if_pos hg]
  simp only [hfind]

/-- Run lemma: the authorization_code branch on a code absent from the
store. -/
theorem oauthToken_authcode_missing (hash : String → String) (s : Srv) (now : Nat)
    (b : TokenBody) (freshA freshR : String)
    (hg : b.grant_type = "authorization_code")
    (hfind : Store.find s.authCodes b.code = none) :
    oauthToken hash s now b freshA freshR = (.invalidGrant none, s) := by
  unfold oauthToken
  rw [if_pos hg]
  simp only [hfind]

/-- C2: on an existing, unexpired authorization code, the exchange
succeeds (returning the access/refresh pair) exactly when `client_id`
and `redirect_uri` match the recorded values and, whenever the code
carries a challenge, the supplied verifier hashes (base64url-SHA256
supplied as `hash`) to it — a missing verifier included; in every other
case the response is `400 invalid_grant`. -/
theorem c2_pkce_mandatory_exchange (hash : String → String) (s : Srv) (now : Nat)
    (b : TokenBody) (freshA freshR : String) (authCode : AuthCode)
    (hg : b.grant_type = "authorization_code")
    (hfind : Store.find s.authCodes b.code = some authCode)
    (hexp : ¬ now > authCode.expires) :
    ((oauthToken hash s now b freshA freshR).1 = TokenResp.ok freshA freshR authCode.scope ↔
      (b.client_id = authCode.client_id ∧ b.redirect_uri = authCode.redirect_uri ∧
       (authCode.code_challenge ≠ "" →
         b.code_verifier ≠ "" ∧ hash b.code_verifier = authCode.code_challenge))) ∧
    (¬ (b.client_id = authCode.client_id ∧ b.redirect_uri = authCode.redirect_uri ∧
        (authCode.code_challenge ≠ "" →
          b.code_verifier ≠ "" ∧ hash b.code_verifier = authCode.code_challenge)) →
      ∃ d, (oauthToken hash s now b freshA freshR).1 = TokenResp.invalidGrant d) := by
  rw [oauthToken_authcode_run hash s now b freshA freshR authCode hg hfind hexp]
  by_cases hcid : b.client_id = authCode.client_id
  · rw [if_neg (show ¬ authCode.client_id ≠ b.client_id by simp [hcid])]
    by_cases hred : b.redirect_uri = authCode.redirect_uri
    · rw [if_neg (show ¬ authCode.redirect_uri ≠ b.redirect_uri by simp [hred])]
      by_cases hch : authCode.code_challenge = ""
      · rw [if_neg (by simp [hch]), if_neg (by simp [hch])]
        constructor
        · constructor
          · intro _
            exact ⟨hcid, hred, fun hne => absurd hch hne⟩
          · intro _
            rfl
        · intro hc
          exact absurd ⟨hcid, hred, fun hne => absurd hch hne⟩ hc
      · by_cases hv : b.code_verifier = ""
        · rw [if_pos ⟨hch, hv⟩]
          constructor
          · constructor
            · intro h
              exact absurd h (by simp)
            · rintro ⟨-, -, hPK⟩
              exact absurd hv (hPK hch).1
          · intro _
            exact ⟨_, rfl⟩
        · by_cases hh : hash b.code_verifier = authCode.code_challenge
          · rw [if_neg (fun hc => hv hc.2), if_neg (fun hc => hc.2 hh)]
            constructor
            · constructor
              · intro _
                exact ⟨hcid, hred, fun _ => ⟨hv, hh⟩⟩
              · intro _
                rfl
            · intro hc
              exact absurd ⟨hcid, hred, fun _ => ⟨hv, hh⟩⟩ hc
          · rw [if_neg (fun hc => hv hc.2), if_pos ⟨hch, hh⟩]
            constructor
            · constructor
              · intro h
                exact absurd h (by simp)
              · rintro ⟨-, -, hPK⟩
                exact absurd (hPK hch).2 hh
            · intro _
              exact ⟨_, rfl⟩
    · rw [if_pos (show authCode.redirect_uri ≠ b.redirect_uri from fun e => hred e.symm)]
      constructor
      · constructor
        · intro h
          exact absurd h (by simp)
        · rintro ⟨-, hr, -⟩
          exact absurd hr hred
      · intro _
        exact ⟨_, rfl⟩
  · rw [if_pos (show authCode.client_id ≠ b.client_id from fun e => hcid e.symm)]
    constructor
    · constructor
      · intro h
        exact absurd h (by simp)
      · rintro ⟨hc, -, -⟩
        exact absurd hc hcid
    · intro _
      exact ⟨_, rfl⟩

/-- Witness for C2: with the verifier hashing to the recorded challenge
the exchange succeeds. -/
theorem c2_pkce_witness :
    (oauthToken (fun v => v) srvC2 1000 bC2 "A" "R").1 =
      TokenResp.ok "A" "R" "mcp:tools" := by
  have h := (c2_pkce_mandatory_exchange (fun v => v) srvC2 1000 bC2 "A" "R" acW
    rfl (by decide) (by decide)).1
  exact h.mpr (by decide)

/-- C3: a refresh_token grant on a stored, unexpired token of kind
`refresh` deletes the submitted token and issues a fresh access/refresh
pair bound to the same `client_id`; resubmitting the consumed token then
yields `invalid_grant` with the store unchanged; a missing, wrong-kind
or expired token yields `invalid_grant` with the store unchanged. -/
theorem c3_refresh_token_rotation (hash : String → String) (s : Srv) (now : Nat)
    (b : TokenBody) (freshA freshR : String)
    (hg : b.grant_type = "refresh_token") :
    (∀ rt, Store.find s.tokens b.refresh_token = some rt →
       rt.type = TokType.refresh → ¬ now > rt.expires →
       freshA ≠ b.refresh_token → freshR ≠ b.refresh_token →
       (oauthToken hash s now b freshA freshR).1 = TokenResp.ok freshA freshR "mcp:tools" ∧
       Store.find (oauthToken hash s now b freshA freshR).2.tokens b.refresh_token = none ∧
       Store.find (oauthToken hash s now b freshA freshR).2.tokens freshR =
         some { type := .refresh, client_id := rt.client_id, expires := now + 30 * 86400000 } ∧
       (freshA ≠ freshR →
         Store.find (oauthToken hash s now b freshA freshR).2.tokens freshA =
           some { type := .access, client_id := rt.client_id, expires := now + 3600000 }) ∧
       (∀ (now2 : Nat) (b2 : TokenBody) (fa2 fr2 : String),
          b2.grant_type = "refresh_token" → b2.refresh_token = b.refresh_token →
          oauthToken hash (oauthToken hash s now b freshA freshR).2 now2 b2 fa2 fr2 =
            (TokenResp.invalidGrant none, (oauthToken hash s now b freshA freshR).2))) ∧
    (∀ rt, Store.find s.tokens b.refresh_token = some rt →
       rt.type ≠ TokType.refresh ∨ now > rt.expires →
       oauthToken hash s now b freshA freshR = (TokenResp.invalidGrant none, s)) ∧
    (Store.find s.tokens b.refresh_token = none →
       oauthToken hash s now b freshA freshR = (TokenResp.invalidGrant none, s)) := by
  refine ⟨?_, ?_, ?_⟩
  · intro rt hfind htype hexp hA hR
    have hrun := oauthToken_refresh_run hash s now b freshA freshR rt hg hfind
    rw [if_neg (not_or.mpr ⟨fun hne => hne htype, hexp⟩)] at hrun
    have hrtk : Store.find (oauthToken hash s now b freshA freshR).2.tokens
        b.refresh_token = none := by
      rw [hrun]
      simp only [issueTokenPair]
      rw [Store.find_set_ne _ _ _ _ (fun e => hR e.symm),
          Store.find_set_ne _ _ _ _ (fun e => hA e.symm)]
      exact Store.find_del_self _ _
    refine ⟨by rw [hrun], hrtk, ?_, ?_, ?_⟩
    · rw [hrun]
      simp only [issueTokenPair]
      exact Store.find_set_self _ _ _
    · intro hAR
      rw [hrun]
      simp only [issueTokenPair]
      rw [Store.find_set_ne _ _ _ _ hAR]
      exact Store.find_set_self _ _ _
    · intro now2 b2 fa2 fr2 hg2 heq
      exact oauthToken_refresh_missing hash _ now2 b2 fa2 fr2 hg2 (by rw [heq]; exact hrtk)
  · intro rt hfind hbad
    rw [oauthToken_refresh_run hash s now b freshA freshR rt hg hfind, if_pos hbad]
  · intro hfind
    exact oauthToken_refresh_missing hash s now b freshA freshR hg hfind

/-- Witness for C3: redeeming `R1` succeeds, consumes `R1`, and a second
redemption of `R1` fails with `invalid_grant`. -/
theorem c3_rotation_witness :
    (oauthToken (fun v => v) srvC3 1000 bC3 "A1" "R2").1 =
      TokenResp.ok "A1" "R2" "mcp:tools" ∧
    Store.find (oauthToken (fun v => v) srvC3 1000 bC3 "A1" "R2").2.tokens "R1" = none ∧
    oauthToken (fun v => v) (oauthToken (fun v => v) srvC3 1000 bC3 "A1" "R2").2
        2000 bC3 "A3" "R3" =
      (TokenResp.invalidGrant none, (oauthToken (fun v => v) srvC3 1000 bC3 "A1" "R2").2) := by
  have h := (c3_refresh_token_rotation (fun v => v) srvC3 1000 bC3 "A1" "R2" rfl).1
    { type := .refresh, client_id := "cid", expires := 5000 }
    rfl rfl (by decide) (by decide) (by decide)
  exact ⟨h.1, h.2.1, h.2.2.2.2 2000 bC3 "A3" "R3" rfl rfl⟩

/-- C4: a successful authorization_code exchange deletes the code,
so any later authorization_code request submitting the same code yields
`invalid_grant` and leaves the state unchanged. -/
theorem c4_authcode_single_use (hash : String → String) (s : Srv) (now : Nat)
    (b : TokenBody) (freshA freshR : String) (a r sc : String)
    (hg : b.grant_type = "authorization_code")
    (hok : (oauthToken hash s now b freshA freshR).1 = TokenResp.ok a r sc) :
    Store.find (oauthToken hash s now b freshA freshR).2.authCodes b.code = none ∧
    (∀ (now2 : Nat) (b2 : TokenBody) (fa2 fr2 : String),
       b2.grant_type = "authorization_code" → b2.code = b.code →
       oauthToken hash (oauthToken hash s now b freshA freshR).2 now2 b2 fa2 fr2 =
         (TokenResp.invalidGrant none, (oauthToken hash s now b freshA freshR).2)) := by
  cases hfind : Store.find s.authCodes b.code with
  | none =>
    rw [oauthToken_authcode_missing hash s now b freshA freshR hg hfind] at hok
    exact absurd hok (by simp)
  | some authCode =>
    by_cases hexp : now > authCode.expires
    · have hbad : oauthToken hash s now b freshA freshR =
          (.invalidGrant none, { s with authCodes := Store.del s.authCodes b.code }) := by
        unfold oauthToken
        rw [if_pos hg]
        simp only [hfind]
        rw [if_pos hexp]
      rw [hbad] at hok
      exact absurd hok (by simp)
    · have hrun := oauthToken_authcode_run hash s now b freshA freshR authCode hg hfind hexp
      by_cases h1 : authCode.client_id ≠ b.client_id
      · rw [if_pos h1] at hrun
        rw [hrun] at hok
        exact absurd hok (by simp)
      · rw [if_neg h1] at hrun
        by_cases h2 : authCode.redirect_uri ≠ b.redirect_uri
        · rw [if_pos h2] at hrun
          rw [hrun] at hok
          exact absurd hok (by simp)
        · rw [if_neg h2] at hrun
          by_cases h3 : authCode.code_challenge ≠ "" ∧ b.code_verifier = ""
          · rw [if_pos h3] at hrun
            rw [hrun] at hok
            exact absurd hok (by simp)
          · rw [if_neg h3] at hrun
            by_cases h4 : authCode.code_challenge ≠ "" ∧
                hash b.code_verifier ≠ authCode.code_challenge
            · rw [if_pos h4] at hrun
              rw [hrun] at hok
              exact absurd hok (by simp)
            · rw [if_neg h4] at hrun
              rw [hrun]
              have hnone : Store.find (Store.del s.authCodes b.code) b.code = none :=
                Store.find_del_self _ _
              refine ⟨by simp, ?_⟩
              intro now2 b2 fa2 fr2 hg2 hc2
              exact oauthToken_authcode_missing hash _ now2 b2 fa2 fr2 hg2
                (by rw [hc2]; simp)

/-- Witness for C4: `code4` redeems once and the second redemption
fails with `invalid_grant`. -/
theorem c4_single_use_witness :
    Store.find (oauthToken (fun v => v) srvC4 1000 bC4 "A" "R").2.authCodes "code4" = none ∧
    oauthToken (fun v => v) (oauthToken (fun v => v) srvC4 1000 bC4 "A" "R").2
        1500 bC4 "A2" "R2" =
      (TokenResp.invalidGrant none, (oauthToken (fun v => v) srvC4 1000 bC4 "A" "R").2) := by
  have h := c4_authcode_single_use (fun v => v) srvC4 1000 bC4 "A" "R" "A" "R" "mcp:tools"
    rfl (by decide)
  exact ⟨h.1, h.2 1500 bC4 "A2" "R2" rfl rfl⟩

/-- Run lemma: `/oauth/approve` past the CSRF check. -/
theorem oauthApprove_run (s : Srv) (now : Nat) (b : ApproveBody) (nc : String)
    (h1 : b.csrf ≠ "") (h2 : (Store.find s.csrfTokens b.csrf).isSome) :
    oauthApprove s now b nc =
      match Store.find s.clients b.client_id with
      | none => (.unknownClient, { s with csrfTokens := Store.del s.csrfTokens b.csrf })
      | some client =>
        if client.redirect_uris.length > 0 ∧ b.redirect_uri ∉ client.redirect_uris then
          (.badRedirect, { s with csrfTokens := Store.del s.csrfTokens b.csrf })
        else
          (.redirect b.redirect_uri nc (if b.state = "" then none else some b.state),
           { s with csrfTokens := Store.del s.csrfTokens b.csrf,
                    authCodes := Store.set s.authCodes nc (approvedCode b now) }) := by
  have hcond : ¬ (b.csrf = "" ∨ ¬ Store.contains s.csrfTokens b.csrf) := by
    simp [Store.contains, h1]
    exact Option.isSome_iff_ne_none.mp h2
  unfold oauthApprove
  rw [if_neg hcond]

/-- C6: when the resolved client registered one or more redirect
URIs and the submitted `redirect_uri` is not exactly one of them, the
approval returns the `400` error with no authorization code minted and
no redirect; and a `302` redirect is produced only when the CSRF, client
and redirect-URI checks all passed, its target being the submitted
`redirect_uri` with the fresh code and (when nonempty) the round-tripped
`state` attached. -/
theorem c6_no_unvalidated_redirect (s : Srv) (now : Nat) (b : ApproveBody) (newCode : String) :
    (∀ client, Store.find s.clients b.client_id = some client →
       client.redirect_uris.length > 0 → b.redirect_uri ∉ client.redirect_uris →
       b.csrf ≠ "" → (Store.find s.csrfTokens b.csrf).isSome →
       (oauthApprove s now b newCode).1 = ApproveResp.badRedirect ∧
       (oauthApprove s now b newCode).2.authCodes = s.authCodes) ∧
    (∀ uri code st, (oauthApprove s now b newCode).1 = ApproveResp.redirect uri code st →
       (b.csrf ≠ "" ∧ (Store.find s.csrfTokens b.csrf).isSome) ∧
       (∃ client, Store.find s.clients b.client_id = some client ∧
          (client.redirect_uris.length = 0 ∨ b.redirect_uri ∈ client.redirect_uris)) ∧
       uri = b.redirect_uri ∧ code = newCode ∧
       st = (if b.state = "" then none else some b.state)) := by
  constructor
  · intro client hc hlen hnot hcs hsome
    rw [oauthApprove_run s now b newCode hcs hsome]
    simp only [hc]
    rw [if_pos ⟨hlen, hnot⟩]
    exact ⟨rfl, rfl⟩
  · intro uri code st hred
    by_cases hcond : b.csrf = "" ∨ Store.find s.csrfTokens b.csrf = none
    · rw [oauthApprove_forbidden s now b newCode hcond] at hred
      exact absurd hred (by simp)
    · have hcs : b.csrf ≠ "" := fun h => hcond (Or.inl h)
      have hsome : (Store.find s.csrfTokens b.csrf).isSome := by
        cases hf : Store.find s.csrfTokens b.csrf with
        | none => exact absurd (Or.inr hf) hcond
        | some v => rfl
      rw [oauthApprove_run s now b newCode hcs hsome] at hred
      cases hc : Store.find s.clients b.client_id with
      | none =>
        simp only [hc] at hred
        exact absurd hred (by simp)
      | some client =>
        simp only [hc] at hred
        by_cases hr : client.redirect_uris.length > 0 ∧ b.redirect_uri ∉ client.redirect_uris
        · rw [if_pos hr] at hred
          exact absurd hred (by simp)
        · rw [if_neg hr] at hred
          have hok : client.redirect_uris.length = 0 ∨ b.redirect_uri ∈ client.redirect_uris := by
            by_cases hl : client.redirect_uris.length = 0
            · exact Or.inl hl
            · have hpos : client.redirect_uris.length > 0 := Nat.pos_of_ne_zero hl
              refine Or.inr (not_not.mp fun hmem => hr ⟨hpos, hmem⟩)
          have := hred
          simp only [Prod.fst] at this
          injection this with e1 e2 e3
          exact ⟨⟨hcs, hsome⟩, ⟨client, rfl, hok⟩, e1.symm, e2.symm, e3.symm⟩

/-- Witness for C6: `bC6bad` is rejected with no code minted; `bC6good`
redirects to the registered URI with the code and state attached. -/
theorem c6_redirect_witness :
    (oauthApprove srvC6 100 bC6bad "nc").1 = ApproveResp.badRedirect ∧
    (oauthApprove srvC6 100 bC6bad "nc").2.authCodes = srvC6.authCodes ∧
    ("https://ok.example/cb" = bC6good.redirect_uri ∧ "nc2" = "nc2" ∧
       (some "xyz" : Option String) =
         (if bC6good.state = "" then none else some bC6good.state)) := by
  have h1 := (c6_no_unvalidated_redirect srvC6 100 bC6bad "nc").1 clientC6
    rfl (by decide) (by decide) (by decide) (by decide)
  have h2 := (c6_no_unvalidated_redirect srvC6 100 bC6good "nc2").2
    "https://ok.example/cb" "nc2" (some "xyz") (by decide)
  exact ⟨h1.1, h1.2, h2.2.2⟩

/-- C8 as frozen is refuted on the code: a `GET /mcp` carrying the
known session id `s8` is dispatched into its context, yet the
`expires_at` of the session stays at 100 rather than being set to `now + SESSION_TTL`
(the 30-minute idle window). -/
theorem c8_get_not_renewed_counterexample :
    (mcpGet srvC8 200 "" "s8").1 = McpResp.handled 5 ∧
    Store.find (mcpGet srvC8 200 "" "s8").2.mcpSessions "s8" =
      some { ctx := 5, expires_at := 100 } ∧
    (100 : Nat) ≠ 200 + SESSION_TTL := by
  decide

/-- C8 (amended): a `POST /mcp` carrying a known session id (the
transport echoing that id) is dispatched into the context of that
session and sets its `expires_at` to `now + SESSION_TTL`, touching nothing
else (same ctx, other sessions and all other stores unchanged); a
`GET /mcp` on a known session id is dispatched into the context with the
entire state unchanged (no renewal). -/
theorem c8_post_renews_get_does_not (s : Srv) (now : Nat)
    (authHeader sessionIdHdr : String) (freshCtx : Nat) (sess : Session)
    (hauth : mcpAuth s now authHeader = none)
    (hsid : sessionIdHdr ≠ "")
    (hfind : Store.find s.mcpSessions sessionIdHdr = some sess) :
    mcpPost s now authHeader sessionIdHdr freshCtx (some sessionIdHdr) =
      (McpResp.handled sess.ctx,
       { s with mcpSessions := Store.set s.mcpSessions sessionIdHdr { ctx := sess.ctx, expires_at := now + SESSION_TTL } }) ∧
    Store.find (mcpPost s now authHeader sessionIdHdr freshCtx (some sessionIdHdr)).2.mcpSessions sessionIdHdr =
      some { ctx := sess.ctx, expires_at := now + SESSION_TTL } ∧
    (∀ k, k ≠ sessionIdHdr →
       Store.find (mcpPost s now authHeader sessionIdHdr freshCtx (some sessionIdHdr)).2.mcpSessions k =
         Store.find s.mcpSessions k) ∧
    (mcpPost s now authHeader sessionIdHdr freshCtx (some sessionIdHdr)).2.clients = s.clients ∧
    (mcpPost s now authHeader sessionIdHdr freshCtx (some sessionIdHdr)).2.authCodes = s.authCodes ∧
    (mcpPost s now authHeader sessionIdHdr freshCtx (some sessionIdHdr)).2.tokens = s.tokens ∧
    (mcpPost s now authHeader sessionIdHdr freshCtx (some sessionIdHdr)).2.csrfTokens = s.csrfTokens ∧
    mcpGet s now authHeader sessionIdHdr = (McpResp.handled sess.ctx, s) := by
  have hpost : mcpPost s now authHeader sessionIdHdr freshCtx (some sessionIdHdr) =
      (McpResp.handled sess.ctx,
       { s with mcpSessions := Store.set s.mcpSessions sessionIdHdr { ctx := sess.ctx, expires_at := now + SESSION_TTL } }) := by
    unfold mcpPost
    rw [hauth]
    rw [if_neg hsid]
    simp only [hfind]
    rw [if_neg (by simp [Store.contains])]
  have hget : mcpGet s now authHeader sessionIdHdr = (McpResp.handled sess.ctx, s) := by
    unfold mcpGet
    rw [hauth]
    rw [if_neg hsid]
    simp only [hfind]
  refine ⟨hpost, ?_, ?_, ?_, ?_, ?_, ?_, hget⟩
  · rw [hpost]
    simp [Store.find_set_self]
  · intro k hk
    rw [hpost]
    simp only []
    exact Store.find_set_ne _ _ _ _ hk
  · rw [hpost]
  · rw [hpost]
  · rw [hpost]
  · rw [hpost]

/-- Witness for the amended C8 at a concrete state. -/
theorem c8_renewal_witness :
    mcpPost srvC8 200 "" "s8" 99 (some "s8") =
      (McpResp.handled 5,
       { srvC8 with mcpSessions := Store.set srvC8.mcpSessions "s8" { ctx := 5, expires_at := 200 + SESSION_TTL } }) ∧
    mcpGet srvC8 200 "" "s8" = (McpResp.handled 5, srvC8) := by
  have h := c8_post_renews_get_does_not srvC8 200 "" "s8" 99
    { ctx := 5, expires_at := 100 } (by decide) (by decide) rfl
  exact ⟨h.1, h.2.2.2.2.2.2.2⟩

/-- A key sitting at the head of a store is present in it. -/
theorem find_isSome_of_head (m : Store CacheEntry) (k0 : String) (e0 : CacheEntry)
    (hh : m.head? = some (k0, e0)) : (Store.find m k0).isSome := by
  cases m with
  | nil => simp at hh
  | cons p rest =>
    obtain ⟨k1, v1⟩ := p
    simp at hh
    simp [Store.find, hh.1]

/-- Unfolding equation for `LRUCache.get`. -/
theorem lruGet_eq (c : LRUCache) (key : String) (now : Nat) :
    c.get key now =
      (match Store.find c.map key with
       | none => (none, c)
       | some entry =>
         if now > entry.expires then (none, { c with map := Store.del c.map key })
         else (some entry.value, { c with map := Store.set (Store.del c.map key) key entry })) := rfl

/-- Unfolding equation for the map after `LRUCache.set`. -/
theorem lruSet_map_eq (c : LRUCache) (key : String) (value now : Nat) :
    (c.set key value now).map =
      (if (Store.set (Store.del c.map key) key { value := value, expires := now + c.ttl }).length > c.max then
        match (Store.set (Store.del c.map key) key { value := value, expires := now + c.ttl }).head? with
        | some (oldest, _) =>
          Store.del (Store.set (Store.del c.map key) key { value := value, expires := now + c.ttl }) oldest
        | none => Store.set (Store.del c.map key) key { value := value, expires := now + c.ttl }
      else Store.set (Store.del c.map key) key { value := value, expires := now + c.ttl }) := rfl

/-- `max` is unchanged by `LRUCache.set`. -/
theorem lruSet_max_eq (c : LRUCache) (key : String) (value now : Nat) :
    (c.set key value now).max = c.max := rfl

/-- C10: the report cache maintains `size ≤ max` after every
operation — `set` evicts the least-recently-used (oldest) entry when the
insert would exceed the bound — and `get` on a key whose stored expiry
has passed returns `undefined` and removes the entry, so `has` is
`false` for expired entries even before `prune` runs. -/
theorem c10_lru_cache_invariants (c : LRUCache) (key : String) (value : Nat) (now : Nat)
    (hwf : Store.WF c.map) (hlen : c.map.length ≤ c.max) :
    ((c.set key value now).map.length ≤ c.max ∧ Store.WF (c.set key value now).map) ∧
    ((c.get key now).2.map.length ≤ c.max ∧ Store.WF (c.get key now).2.map) ∧
    (c.delete key).map.length ≤ c.max ∧
    (c.prune now).map.length ≤ c.max ∧
    (c.has key now).2.map.length ≤ c.max ∧
    c.clear.map.length ≤ c.max ∧
    (∀ entry, Store.find c.map key = some entry → now > entry.expires →
       (c.get key now).1 = none ∧
       Store.find (c.get key now).2.map key = none ∧
       (c.has key now).1 = false) ∧
    (Store.find c.map key = none → c.map.length = c.max →
       ∀ k0 e0, c.map.head? = some (k0, e0) →
         Store.find (c.set key value now).map k0 = none ∧
         (c.set key value now).map.length = c.max) := by
  have hget : (c.get key now).2.map.length ≤ c.max ∧ Store.WF (c.get key now).2.map := by
    cases hf : Store.find c.map key with
    | none =>
      have hrun : c.get key now = (none, c) := by
        rw [lruGet_eq]
        simp only [hf]
      rw [hrun]
      exact ⟨hlen, hwf⟩
    | some entry =>
      by_cases he : now > entry.expires
      · have hrun : c.get key now = (none, { c with map := Store.del c.map key }) := by
          rw [lruGet_eq]
          simp only [hf]
          rw [if_pos he]
        rw [hrun]
        exact ⟨le_trans (Store.length_del_le _ _) hlen, Store.wf_del _ _ hwf⟩
      · have hrun : c.get key now =
            (some entry.value, { c with map := Store.set (Store.del c.map key) key entry }) := by
          rw [lruGet_eq]
          simp only [hf]
          rw [if_neg he]
        rw [hrun]
        constructor
        · show (Store.set (Store.del c.map key) key entry).length ≤ c.max
          rw [Store.length_set_of_not_mem _ _ _ (Store.find_del_self _ _)]
          have h3 := Store.length_del_of_mem c.map key hwf (by simp [hf])
          omega
        · exact Store.wf_set _ _ _ (Store.wf_del _ _ hwf)
  refine ⟨?_, hget, ?_, ?_, ?_, ?_, ?_, ?_⟩
  · -- set keeps size within the bound
    have hnone : Store.find (Store.del c.map key) key = none := Store.find_del_self _ _
    have hwf2 : Store.WF (Store.set (Store.del c.map key) key
        { value := value, expires := now + c.ttl }) :=
      Store.wf_set _ _ _ (Store.wf_del _ _ hwf)
    have hlen2 : (Store.set (Store.del c.map key) key
        { value := value, expires := now + c.ttl }).length ≤ c.max + 1 := by
      rw [Store.length_set_of_not_mem _ _ _ hnone]
      have := Store.length_del_le c.map key
      omega
    by_cases hbig : (Store.set (Store.del c.map key) key
        { value := value, expires := now + c.ttl }).length > c.max
    · cases hh : (Store.set (Store.del c.map key) key
          { value := value, expires := now + c.ttl }).head? with
      | none =>
        have hnil : Store.set (Store.del c.map key) key
            { value := value, expires := now + c.ttl } = [] := List.head?_eq_none_iff.mp hh
        rw [hnil] at hbig
        simp at hbig
      | some p =>
        obtain ⟨k0, e0⟩ := p
        have hrun : (c.set key value now).map = Store.del
            (Store.set (Store.del c.map key) key { value := value, expires := now + c.ttl }) k0 := by
          rw [lruSet_map_eq, if_pos hbig]
          simp only [hh]
        rw [hrun]
        have hmem := find_isSome_of_head _ k0 e0 hh
        have hone := Store.length_del_of_mem _ k0 hwf2 hmem
        exact ⟨by omega, Store.wf_del _ _ hwf2⟩
    · have hrun : (c.set key value now).map =
          Store.set (Store.del c.map key) key { value := value, expires := now + c.ttl } := by
        rw [lruSet_map_eq, if_neg hbig]
      rw [hrun]
      exact ⟨by omega, hwf2⟩
  · -- delete
    exact le_trans (Store.length_del_le _ _) hlen
  · -- prune
    exact le_trans (List.length_filter_le _ _) hlen
  · -- has
    exact hget.1
  · -- clear
    exact Nat.zero_le _
  · -- expired read
    intro entry hf he
    have hrun : c.get key now = (none, { c with map := Store.del c.map key }) := by
      rw [lruGet_eq]
      simp only [hf]
      rw [if_pos he]
    refine ⟨by rw [hrun], by rw [hrun]; exact Store.find_del_self _ _, ?_⟩
    unfold LRUCache.has
    rw [hrun]
    rfl
  · -- eviction of the oldest entry at capacity
    intro hf hfull k0 e0 hh
    have hdel : Store.del c.map key = c.map :=
      Store.del_of_not_mem_keys c.map key (Store.not_mem_keys_of_find_eq_none c.map key hf)
    have hlen2 : (Store.set (Store.del c.map key) key
        { value := value, expires := now + c.ttl }).length = c.max + 1 := by
      rw [Store.length_set_of_not_mem]
      · rw [hdel, hfull]
      · rw [hdel]
        exact hf
    have hbig : (Store.set (Store.del c.map key) key
        { value := value, expires := now + c.ttl }).length > c.max := by omega
    have hh2 : (Store.set (Store.del c.map key) key
        { value := value, expires := now + c.ttl }).head? = some (k0, e0) := by
      rw [hdel, Store.set_of_not_mem c.map key _ hf]
      cases hm : c.map with
      | nil =>
        rw [hm] at hh
        simp at hh
      | cons p rest =>
        rw [hm] at hh
        simp at hh
        simp [hh]
    have hwf2 : Store.WF (Store.set (Store.del c.map key) key
        { value := value, expires := now + c.ttl }) :=
      Store.wf_set _ _ _ (Store.wf_del _ _ hwf)
    have hrun : (c.set key value now).map = Store.del
        (Store.set (Store.del c.map key) key { value := value, expires := now + c.ttl }) k0 := by
      rw [lruSet_map_eq, if_pos hbig]
      simp only [hh2]
    constructor
    · rw [hrun]
      exact Store.find_del_self _ _
    · rw [hrun]
      have hmem := find_isSome_of_head _ k0 e0 hh2
      have hone := Store.length_del_of_mem _ k0 hwf2 hmem
      omega

/-- Witness for C10 on a concrete two-entry cache at capacity with one
expired entry. -/
theorem c10_lru_witness :
    (cacheW.set "c" 3 50).map.length ≤ 2 ∧
    (cacheW.get "a" 50).1 = none ∧
    Store.find (cacheW.get "a" 50).2.map "a" = none ∧
    (cacheW.has "a" 50).1 = false := by
  have h1 := c10_lru_cache_invariants cacheW "c" 3 50 (by unfold Store.WF; decide) (by decide)
  have h2 := c10_lru_cache_invariants cacheW "a" 3 50 (by unfold Store.WF; decide) (by decide)
  have hexp := h2.2.2.2.2.2.2.1 { value := 1, expires := 5 } rfl (by decide)
  exact ⟨h1.1.1, hexp.1, hexp.2.1, hexp.2.2⟩

end VinMcp
